import Mathlib

/-!
Verification of the sync-docs real-time collaborative editor client.

The definitions below are a shallow embedding of
`frontend/src/routes/(protected)/docs/[document_id]/+page.svelte`
(throttle / debounce / cursor / presence / close-code handling) and of
`frontend/src/lib/auth.ts` (`apiFetch` and its wrappers), together with a
plain-text model of the `quill-delta` content-operation algebra that the
component uses for coalescing (`d1.compose(d2)`).
-/

namespace SyncDocs

/-! ## Content operations (quill-delta model)

Modelled from the spec: the `quill-delta` library (`Delta`, `Delta.compose`)
is an external dependency whose implementation is not part of this
repository; §3 of the spec fixes the format — "ops: ordered sequence of
{insert: text|embed, retain: length+attributes, delete: length}" — and the
contract "composing op A then op B yields an op C such that applying C to a
document equals applying A then B sequentially".  We model the plain-text
core: an operation is an ordered list of insert / retain / delete
instructions acting on a character list. -/

inductive Op where
  | insert (s : List Char)
  | retain (n : Nat)
  | delete (n : Nat)
deriving DecidableEq

abbrev Delta := List Op

/-- Length of base document consumed by one instruction. -/
def opBase : Op → Nat
  | .insert _ => 0
  | .retain n => n
  | .delete n => n

/-- Length of result document produced by one instruction. -/
def opTarget : Op → Nat
  | .insert s => s.length
  | .retain n => n
  | .delete _ => 0

/-- Length of base document a delta consumes. -/
def baseLen : Delta → Nat
  | [] => 0
  | op :: rest => opBase op + baseLen rest

/-- Length of result document a delta produces from a long-enough base. -/
def targetLen : Delta → Nat
  | [] => 0
  | op :: rest => opTarget op + targetLen rest

/-- Apply a delta to a document: insert adds text, retain keeps the next
`n` characters, delete drops them; trailing document text is kept. -/
def applyDelta : Delta → List Char → List Char
  | [], doc => doc
  | .insert s :: rest, doc => s ++ applyDelta rest doc
  | .retain n :: rest, doc => doc.take n ++ applyDelta rest (doc.drop n)
  | .delete n :: rest, doc => applyDelta rest (doc.drop n)

/-- Size measure used for the termination of `compose`. -/
def opSize : Op → Nat
  | .insert s => s.length
  | .retain n => n
  | .delete n => n

def deltaSize : Delta → Nat
  | [] => 0
  | op :: rest => opSize op + deltaSize rest

/-- Composition of two deltas, following the `quill-delta` iterator
algorithm: an insert of the second delta is emitted first, then a delete of
the first; otherwise the two head instructions are chopped to their common
length and combined (retain keeps the first delta's output, delete removes
retained text and cancels inserted text).  Remaining instructions of the
first delta pass through once the second is exhausted. -/
def compose : Delta → Delta → Delta
  | a, [] => a
  | a, .insert s :: b => .insert s :: compose a b
  | [], .retain n :: b => .retain n :: compose [] b
  | [], .delete n :: b => .delete n :: compose [] b
  | .delete k :: a, .retain n :: b => .delete k :: compose a (.retain n :: b)
  | .delete k :: a, .delete n :: b => .delete k :: compose a (.delete n :: b)
  | .insert s :: a, .retain n :: b =>
      if s.length ≤ n then .insert s :: compose a (.retain (n - s.length) :: b)
      else .insert (s.take n) :: compose (.insert (s.drop n) :: a) b
  | .insert s :: a, .delete n :: b =>
      if s.length ≤ n then compose a (.delete (n - s.length) :: b)
      else compose (.insert (s.drop n) :: a) b
  | .retain m :: a, .retain n :: b =>
      if m ≤ n then .retain m :: compose a (.retain (n - m) :: b)
      else .retain n :: compose (.retain (m - n) :: a) b
  | .retain m :: a, .delete n :: b =>
      if m ≤ n then .delete m :: compose a (.delete (n - m) :: b)
      else .delete n :: compose (.retain (m - n) :: a) b
termination_by a b => deltaSize a + deltaSize b + a.length + b.length
decreasing_by
  all_goals (simp [deltaSize, opSize]; omega)

/-! ## Editor session state
(`frontend/src/routes/(protected)/docs/[document_id]/+page.svelte`)

The component's reactive `$state` variables are collected in `EditorState`;
each event handler of the component becomes a function on this state.  Time
is an explicit `Nat` parameter (the value of `Date.now()` when the handler
runs); `setTimeout(f, d)` at time `t` is modelled by recording the armed
absolute fire time `t + d`, and `clearTimeout` by erasing it.  The ghost
fields `sent`, `sentCursor` and `clock` record the messages written to the
WebSocket and the current time; they have no counterpart in the component
but only observe it. -/

def THROTTLE_INTERVAL : Nat := 150

def CURSOR_THROTTLE_INTERVAL : Nat := 150

/-- `saveStatus` values of the component. -/
inductive SaveStatus where
  | idle | unsaved | saving | saved | error | connecting
deriving DecidableEq

/-- An entry of the `onlineUsers` map (`PresenceUser` of `$lib/types/cursor`). -/
structure PresenceUser where
  user_id : String
  username : String
  color : String
deriving DecidableEq

structure EditorState where
  sockOpen : Bool       -- socket ≠ null ∧ socket.readyState = WebSocket.OPEN
  canWrite : Bool
  saveStatus : SaveStatus
  debounceTimeout : Option Nat
  pendingDelta : Option Delta
  throttleTimeout : Option Nat
  lastSendTime : Nat
  pendingCursor : Option (Nat × Nat)   -- {index, length}
  cursorThrottleTimer : Option Nat
  onlineUsers : List (String × PresenceUser)   -- JS Map in insertion order
  sent : List (Nat × Delta)            -- ghost: delta messages sent, with times
  sentCursor : List (Nat × (Nat × Nat))  -- ghost: cursor_move messages sent
  clock : Nat                          -- ghost: current time
deriving DecidableEq

/-- Initial values of the component's `$state` declarations. -/
def initState (sockOpen canWrite : Bool) : EditorState :=
  { sockOpen := sockOpen, canWrite := canWrite, saveStatus := .connecting,
    debounceTimeout := none, pendingDelta := none, throttleTimeout := none,
    lastSendTime := 0, pendingCursor := none, cursorThrottleTimer := none,
    onlineUsers := [], sent := [], sentCursor := [], clock := 0 }

/-- `sendPendingDelta()`: returns early when nothing is pending; otherwise
sends the pending delta when the socket is open, then clears it and stamps
`lastSendTime = Date.now()`. -/
def sendPendingDelta (now : Nat) (s : EditorState) : EditorState :=
  match s.pendingDelta with
  | none => s
  | some d =>
    { s with
      sent := if s.sockOpen then s.sent ++ [(now, d)] else s.sent
      pendingDelta := none
      lastSendTime := now }

/-- `debouncedSave()`: clears the previous debounce timer, shows "unsaved"
and arms a save for 1500 ms later. -/
def debouncedSave (now : Nat) (s : EditorState) : EditorState :=
  { s with saveStatus := .unsaved, debounceTimeout := some (now + 1500) }

/-- The `setTimeout` callback armed by `debouncedSave`: sets "saving" and
issues `put(...)`; `ok` tells whether the call succeeded — on failure the
status becomes "error" and nothing re-arms the timer. -/
def saveTimerFire (ok : Bool) (s : EditorState) : EditorState :=
  { s with debounceTimeout := none
           saveStatus := if ok then .saving else .error }

/-- `handleContentChange(detail)`: ignores non-user changes; composes the
new delta into `pendingDelta` (Quill Delta `compose`); sends immediately
when `THROTTLE_INTERVAL` has elapsed since the last send, otherwise
re-arms the trailing-edge flush for the remaining time; finally triggers
the persistence debounce. -/
def handleContentChange (now : Nat) (source : String) (delta : Delta)
    (s : EditorState) : EditorState :=
  if source ≠ "user" then s else
  let s1 := { s with pendingDelta := some (match s.pendingDelta with
                | some p => compose p delta
                | none => delta) }
  let timeSinceLastSend := now - s1.lastSendTime
  let s2 :=
    if THROTTLE_INTERVAL ≤ timeSinceLastSend then
      sendPendingDelta now s1
    else
      { s1 with throttleTimeout := some (now + (THROTTLE_INTERVAL - timeSinceLastSend)) }
  debouncedSave now s2

/-- The `setTimeout(sendPendingDelta, ...)` callback of the content throttle. -/
def contentTimerFire (now : Nat) (s : EditorState) : EditorState :=
  { sendPendingDelta now s with throttleTimeout := none }

/-- `handleSelectionChange(range)`: returns early on a null range, a
non-open socket or a read-only session; otherwise records the newest cursor
and arms the trailing-edge cursor throttle when no timer is running. -/
def handleSelectionChange (now : Nat) (range : Option (Nat × Nat))
    (s : EditorState) : EditorState :=
  match range with
  | none => s
  | some r =>
    if !s.sockOpen || !s.canWrite then s
    else
      let s1 := { s with pendingCursor := some r }
      if s1.cursorThrottleTimer.isSome then s1
      else { s1 with cursorThrottleTimer := some (now + CURSOR_THROTTLE_INTERVAL) }

/-- The cursor-throttle callback: re-checks the socket, sends the latest
recorded cursor and clears it, then releases the timer slot. -/
def cursorTimerFire (now : Nat) (s : EditorState) : EditorState :=
  let s1 :=
    match s.pendingCursor with
    | some c =>
      if s.sockOpen then
        { s with sentCursor := s.sentCursor ++ [(now, c)], pendingCursor := none }
      else s
    | none => s
  { s1 with cursorThrottleTimer := none }

/-- JS `Map.set`: replaces the value at an existing key, appends otherwise. -/
def mapSet (m : List (String × PresenceUser)) (k : String) (v : PresenceUser) :
    List (String × PresenceUser) :=
  if m.any (fun p => p.1 = k) then
    m.map (fun p => if p.1 = k then (k, v) else p)
  else m ++ [(k, v)]

/-- JS `Map.get` (as an `Option`). -/
def mapGet (m : List (String × PresenceUser)) (k : String) : Option PresenceUser :=
  (m.find? (fun p => p.1 = k)).map (fun p => p.2)

/-- The `presence_sync` branch of `socket.onmessage`: builds a fresh map
keyed by `user_id` from the message's `users` array. -/
def presenceSyncUsers (users : List PresenceUser) : List (String × PresenceUser) :=
  users.foldl (fun m u => mapSet m u.user_id u) []

def handlePresenceSync (users : List PresenceUser) (s : EditorState) : EditorState :=
  { s with onlineUsers := presenceSyncUsers users }

/-- `onDestroy`: sends any still-pending delta when the socket is open,
closes the socket and cancels the debounce, content-throttle and
cursor-throttle timers. -/
def onDestroy (now : Nat) (s : EditorState) : EditorState :=
  let s1 :=
    match s.pendingDelta with
    | some d => if s.sockOpen then { s with sent := s.sent ++ [(now, d)] } else s
    | none => s
  { s1 with sockOpen := false, debounceTimeout := none, throttleTimeout := none,
            cursorThrottleTimer := none }

/-! ### Event traces

An event is a handler invocation or a timer callback, stamped with the time
at which it runs.  A run is valid when time is monotone and a timer
callback only runs if that timer is armed and its scheduled time has been
reached (callbacks may run late, as in the browser event loop). -/

inductive Ev where
  | contentChange (t : Nat) (source : String) (delta : Delta)
  | contentTimer (t : Nat)
  | titleInput (t : Nat)
  | saveTimer (t : Nat) (ok : Bool)
  | selection (t : Nat) (range : Option (Nat × Nat))
  | cursorTimer (t : Nat)
deriving DecidableEq

def evTime : Ev → Nat
  | .contentChange t _ _ => t
  | .contentTimer t => t
  | .titleInput t => t
  | .saveTimer t _ => t
  | .selection t _ => t
  | .cursorTimer t => t

def stepEv (s : EditorState) (e : Ev) : EditorState :=
  let s0 := { s with clock := evTime e }
  match e with
  | .contentChange t src d => handleContentChange t src d s0
  | .contentTimer t => contentTimerFire t s0
  | .titleInput t => debouncedSave t s0
  | .saveTimer _ ok => saveTimerFire ok s0
  | .selection t r => handleSelectionChange t r s0
  | .cursorTimer t => cursorTimerFire t s0

def timerDue (timer : Option Nat) (t : Nat) : Bool :=
  match timer with
  | some sched => sched ≤ t
  | none => false

def evValid (s : EditorState) : Ev → Bool
  | .contentChange t _ _ => s.clock ≤ t
  | .contentTimer t => s.clock ≤ t && timerDue s.throttleTimeout t
  | .titleInput t => s.clock ≤ t
  | .saveTimer t _ => s.clock ≤ t && timerDue s.debounceTimeout t
  | .selection t _ => s.clock ≤ t
  | .cursorTimer t => s.clock ≤ t && timerDue s.cursorThrottleTimer t

def validRun (s : EditorState) : List Ev → Bool
  | [] => true
  | e :: es => evValid s e && validRun (stepEv s e) es

def run (s : EditorState) : List Ev → EditorState
  | [] => s
  | e :: es => run (stepEv s e) es

/-- Invariant of the content-operation throttle: the last send is in the
past, every recorded send is no later than `lastSendTime`, a pending delta
always has a flush armed exactly one `THROTTLE_INTERVAL` after the last
send, and consecutive sends are at least one `THROTTLE_INTERVAL` apart. -/
def ContentInv (s : EditorState) : Prop :=
  s.lastSendTime ≤ s.clock ∧
  (∀ p ∈ s.sent, p.1 ≤ s.lastSendTime) ∧
  (s.pendingDelta.isSome → s.throttleTimeout = some (s.lastSendTime + THROTTLE_INTERVAL)) ∧
  List.Chain' (fun p q => p.1 + THROTTLE_INTERVAL ≤ q.1) s.sent

/-- Invariant of the cursor throttle: every sent cursor message is in the
past, an armed cursor timer lies at least one window after every message
already sent, and consecutive cursor messages are at least one window
apart. -/
def CursorInv (s : EditorState) : Prop :=
  (∀ p ∈ s.sentCursor, p.1 ≤ s.clock) ∧
  (∀ sched, s.cursorThrottleTimer = some sched →
    ∀ p ∈ s.sentCursor, p.1 + CURSOR_THROTTLE_INTERVAL ≤ sched) ∧
  List.Chain' (fun p q => p.1 + CURSOR_THROTTLE_INTERVAL ≤ q.1) s.sentCursor

/-! ## WebSocket close codes and `handleWsError` -/

structure WsCloseCodes where
  AUTH_FAILED : Nat
  TOKEN_EXPIRED : Nat
  PERMISSION_DENIED : Nat
  DOCUMENT_NOT_FOUND : Nat
  TOO_MANY_CONNECTIONS : Nat
  INVALID_MESSAGE : Nat
  MESSAGE_TOO_LARGE : Nat
  RATE_LIMITED : Nat

def WS_CLOSE_CODES : WsCloseCodes :=
  { AUTH_FAILED := 4001
    TOKEN_EXPIRED := 4002
    PERMISSION_DENIED := 4003
    DOCUMENT_NOT_FOUND := 4004
    TOO_MANY_CONNECTIONS := 4005
    INVALID_MESSAGE := 4006
    MESSAGE_TOO_LARGE := 4007
    RATE_LIMITED := 4008 }

/-- The two toast themes declared next to the close codes. -/
structure ToastTheme where
  toastBackground : String
  toastColor : String
  toastBarBackground : String
deriving DecidableEq

def errorTheme : ToastTheme :=
  { toastBackground := "#F56565", toastColor := "white", toastBarBackground := "#C53030" }

def warningTheme : ToastTheme :=
  { toastBackground := "#ED8936", toastColor := "white", toastBarBackground := "#C05621" }

inductive NavTarget where
  | gotoLogin | gotoDashboard | stay
deriving DecidableEq

/-- The client-visible effect of one `handleWsError` invocation: the toast
pushed, whether `logout()` ran, and where the client navigates. -/
structure WsErrorEffect where
  toastMessage : String
  toastTheme : ToastTheme
  didLogout : Bool
  nav : NavTarget
deriving DecidableEq

/-- `handleWsError(code, message)`: the switch over the application close
codes (4002 falls through to the 4001 case; codes with no case — among
them 4006 and 4007 — reach the default branch). -/
def handleWsError (code : Nat) (message : Option String) : WsErrorEffect :=
  if code = WS_CLOSE_CODES.TOKEN_EXPIRED ∨ code = WS_CLOSE_CODES.AUTH_FAILED then
    { toastMessage := "Session expired. Please login again.", toastTheme := errorTheme,
      didLogout := true, nav := .gotoLogin }
  else if code = WS_CLOSE_CODES.PERMISSION_DENIED then
    { toastMessage := message.getD "You do not have permission to access this document.",
      toastTheme := errorTheme, didLogout := false, nav := .gotoDashboard }
  else if code = WS_CLOSE_CODES.DOCUMENT_NOT_FOUND then
    { toastMessage := "Document not found.", toastTheme := errorTheme,
      didLogout := false, nav := .gotoDashboard }
  else if code = WS_CLOSE_CODES.TOO_MANY_CONNECTIONS then
    { toastMessage := "Too many open tabs. Please close some and refresh.",
      toastTheme := errorTheme, didLogout := false, nav := .stay }
  else if code = WS_CLOSE_CODES.RATE_LIMITED then
    { toastMessage := "Sending too fast. Please slow down.", toastTheme := warningTheme,
      didLogout := false, nav := .stay }
  else
    { toastMessage := message.getD "Connection lost. Please refresh the page.",
      toastTheme := errorTheme, didLogout := false, nav := .stay }

/-- The eight application close codes, in declaration order. -/
def wsCloseCodeList : List Nat :=
  [WS_CLOSE_CODES.AUTH_FAILED, WS_CLOSE_CODES.TOKEN_EXPIRED,
   WS_CLOSE_CODES.PERMISSION_DENIED, WS_CLOSE_CODES.DOCUMENT_NOT_FOUND,
   WS_CLOSE_CODES.TOO_MANY_CONNECTIONS, WS_CLOSE_CODES.INVALID_MESSAGE,
   WS_CLOSE_CODES.MESSAGE_TOO_LARGE, WS_CLOSE_CODES.RATE_LIMITED]

/-! ## WebSocket connection establishment (`onMount`) -/

/-- The WebSocket endpoint computed in `onMount`:
`wsProtocol + "//localhost:8000/ws/docs/" + documentId + "/"` — no token
component. -/
def wsUrl (wsProtocol documentId : String) : String :=
  wsProtocol ++ "//localhost:8000/ws/docs/" ++ documentId ++ "/"

/-- The pair of arguments given to `new WebSocket(url, protocols)`: the URL
and the subprotocol list carrying the bearer token out-of-band. -/
def wsConnectionArgs (wsProtocol documentId token : String) : String × List String :=
  (wsUrl wsProtocol documentId, ["access_token." ++ token])

/-! ## REST client (`frontend/src/lib/auth.ts`) -/

structure AuthUser where
  id : Nat
  username : String
  email : Option String
deriving DecidableEq

/-- The `token` and `user` stores. -/
structure AuthState where
  token : Option String
  user : Option AuthUser
deriving DecidableEq

/-- `logout()`. -/
def logout (_s : AuthState) : AuthState :=
  { token := none, user := none }

/-- A `fetch` response as `apiFetch` observes it: HTTP status, status text,
and the `detail` / `message` fields of the decoded error body when present,
plus the raw body for the success path. -/
structure ApiResponse where
  status : Nat
  statusText : String
  detail : Option String
  message : Option String
  body : String
deriving DecidableEq

/-- `Response.ok` of the Fetch API: status in the range 200-299. -/
def respOk (r : ApiResponse) : Bool :=
  decide (200 ≤ r.status) && decide (r.status < 300)

/-- Result of an `apiFetch` call: the resolved JSON body (`none` for a 204),
or the thrown error's message. -/
inductive ApiOutcome where
  | success (body : Option String)
  | failure (msg : String)
deriving DecidableEq

/-- `apiFetch(url, options)`: on a non-ok response, a 401 triggers
`logout()` and throws `Unauthorized`; other failures throw the extracted
error message; a 204 resolves to `null`; otherwise the JSON body is
returned. -/
def apiFetch (st : AuthState) (r : ApiResponse) : AuthState × ApiOutcome :=
  if !respOk r then
    if r.status = 401 then
      (logout st, .failure "Unauthorized")
    else
      (st, .failure (r.detail.getD (r.message.getD
        ("API request failed: " ++ r.statusText))))
  else if r.status = 204 then
    (st, .success none)
  else
    (st, .success (some r.body))

/-- `get(url)`. -/
def getReq (_url : String) (st : AuthState) (r : ApiResponse) : AuthState × ApiOutcome :=
  apiFetch st r

/-- `post(url, data)`. -/
def postReq (_url _data : String) (st : AuthState) (r : ApiResponse) :
    AuthState × ApiOutcome :=
  apiFetch st r

/-- `put(url, data)`. -/
def putReq (_url _data : String) (st : AuthState) (r : ApiResponse) :
    AuthState × ApiOutcome :=
  apiFetch st r

/-- `del(url)`. -/
def delReq (_url : String) (st : AuthState) (r : ApiResponse) : AuthState × ApiOutcome :=
  apiFetch st r

/-! ### Presence roster lemmas -/

/-- Keys of the roster map, in insertion order. -/
def mapKeys (m : List (String × PresenceUser)) : List String :=
  m.map (fun p => p.1)

/-- A state with a pending delta, used to witness C1. -/
def c1State : EditorState :=
  { (initState true true) with
      pendingDelta := some [Op.insert ['a']]
      lastSendTime := 100 }

/-- A state with a pending delta, used to witness C2. -/
def c2State : EditorState :=
  { (initState true true) with pendingDelta := some [Op.insert ['a']] }

/-- A state with an armed debounce timer, used to witness C4. -/
def c4State : EditorState := debouncedSave 7 (initState true true)

/-- A closed-socket state with a pending delta, used to witness C8. -/
def c8State : EditorState :=
  { (initState false true) with pendingDelta := some [Op.insert ['a']] }

/-- Applying a delta that fits the document yields a document of length
`doc.length - baseLen a + targetLen a`. -/
theorem applyDelta_length (a : Delta) :
    ∀ doc : List Char, baseLen a ≤ doc.length →
    (applyDelta a doc).length = doc.length - baseLen a + targetLen a := by
  induction a with
  | nil => intro doc _; simp [applyDelta, baseLen, targetLen]
  | cons op rest ih =>
    intro doc h
    cases op with
    | insert s =>
      simp only [baseLen, opBase, Nat.zero_add] at h
      simp only [applyDelta, baseLen, targetLen, opBase, opTarget, List.length_append,
        Nat.zero_add, ih doc h]
      omega
    | retain n =>
      simp only [baseLen, opBase] at h
      simp only [applyDelta, baseLen, targetLen, opBase, opTarget, List.length_append,
        List.length_take, ih (doc.drop n) (by simp only [List.length_drop]; omega),
        List.length_drop]
      omega
    | delete n =>
      simp only [baseLen, opBase] at h
      simp only [applyDelta, baseLen, targetLen, opBase, opTarget,
        ih (doc.drop n) (by simp only [List.length_drop]; omega), List.length_drop]
      omega

/-- Correctness of coalescing: applying the composition of two deltas that
fit the document equals applying them sequentially.  This is the contract
"composing op A then op B yields an op C such that applying C to a
document equals applying A then B sequentially". -/
theorem applyDelta_compose (a b : Delta) :
    ∀ doc : List Char, baseLen a ≤ doc.length → baseLen b ≤ (applyDelta a doc).length →
    applyDelta (compose a b) doc = applyDelta b (applyDelta a doc) := by
  induction a, b using compose.induct with
  | case1 a =>
    intro doc _ _
    simp [compose, applyDelta]
  | case2 a s b ih =>
    intro doc ha hb
    simp only [baseLen, opBase, Nat.zero_add] at hb
    simp only [compose, applyDelta, ih doc ha hb]
  | case3 n b ih =>
    intro doc ha hb
    simp only [applyDelta, baseLen, opBase] at hb
    simp only [compose, applyDelta]
    rw [ih (doc.drop n) (by simp [baseLen])
        (by simp only [applyDelta, List.length_drop]; omega)]
    rfl
  | case4 n b ih =>
    intro doc ha hb
    simp only [applyDelta, baseLen, opBase] at hb
    simp only [compose, applyDelta]
    rw [ih (doc.drop n) (by simp [baseLen])
        (by simp only [applyDelta, List.length_drop]; omega)]
    rfl
  | case5 k a n b ih =>
    intro doc ha hb
    simp only [baseLen, opBase] at ha
    simp only [applyDelta] at hb
    simp only [compose, applyDelta]
    rw [ih (doc.drop k) (by simp only [List.length_drop]; omega) hb]
    rfl
  | case6 k a n b ih =>
    intro doc ha hb
    simp only [baseLen, opBase] at ha
    simp only [applyDelta] at hb
    simp only [compose, applyDelta]
    rw [ih (doc.drop k) (by simp only [List.length_drop]; omega) hb]
    rfl
  | case7 s a n b h ih =>
    intro doc ha hb
    simp only [baseLen, opBase, Nat.zero_add] at ha hb
    simp only [applyDelta, List.length_append] at hb
    simp only [compose, if_pos h, applyDelta]
    rw [ih doc ha (by simp only [baseLen, opBase]; omega)]
    simp only [applyDelta, List.take_append_eq_append_take, List.drop_append_eq_append_drop,
      List.take_of_length_le h, List.drop_of_length_le h, List.nil_append, List.append_assoc]
  | case8 s a n b h ih =>
    intro doc ha hb
    simp only [baseLen, opBase, Nat.zero_add] at ha hb
    simp only [applyDelta, List.length_append] at hb
    have hns : n - s.length = 0 := by omega
    simp only [compose, if_neg h, applyDelta]
    rw [ih doc (by simp only [baseLen, opBase, Nat.zero_add]; exact ha)
        (by simp only [applyDelta, List.length_append, List.length_drop]; omega)]
    simp only [applyDelta, List.take_append_eq_append_take, List.drop_append_eq_append_drop,
      hns, List.take_zero, List.drop_zero, List.append_nil]
  | case9 s a n b h ih =>
    intro doc ha hb
    simp only [baseLen, opBase, Nat.zero_add] at ha hb
    simp only [applyDelta, List.length_append] at hb
    simp only [compose, if_pos h]
    rw [ih doc ha (by simp only [baseLen, opBase]; omega)]
    simp only [applyDelta, List.drop_append_eq_append_drop,
      List.drop_of_length_le h, List.nil_append]
  | case10 s a n b h ih =>
    intro doc ha hb
    simp only [baseLen, opBase, Nat.zero_add] at ha hb
    simp only [applyDelta, List.length_append] at hb
    have hns : n - s.length = 0 := by omega
    simp only [compose, if_neg h]
    rw [ih doc (by simp only [baseLen, opBase, Nat.zero_add]; exact ha)
        (by simp only [applyDelta, List.length_append, List.length_drop]; omega)]
    simp only [applyDelta, List.drop_append_eq_append_drop, hns, List.drop_zero]
  | case11 m a n b h ih =>
    intro doc ha hb
    simp only [baseLen, opBase] at ha hb
    have hm : m ≤ doc.length := by omega
    have hTlen : (doc.take m).length = m := by simp only [List.length_take]; omega
    simp only [applyDelta, List.length_append, hTlen] at hb
    simp only [compose, if_pos h, applyDelta]
    rw [ih (doc.drop m) (by simp only [List.length_drop]; omega)
        (by simp only [baseLen, opBase]; omega)]
    simp only [applyDelta, List.take_append_eq_append_take, List.drop_append_eq_append_drop,
      hTlen, List.take_of_length_le (show (doc.take m).length ≤ n by omega),
      List.drop_of_length_le (show (doc.take m).length ≤ n by omega),
      List.nil_append, List.append_assoc]
  | case12 m a n b h ih =>
    intro doc ha hb
    simp only [baseLen, opBase] at ha hb
    have hm : m ≤ doc.length := by omega
    have hTlen : (doc.take m).length = m := by simp only [List.length_take]; omega
    simp only [applyDelta, List.length_append, hTlen] at hb
    have hdd : (doc.drop n).drop (m - n) = doc.drop m := by
      rw [List.drop_drop]; congr 1; omega
    have hdtlen : ((doc.drop n).take (m - n)).length = m - n := by
      simp only [List.length_take, List.length_drop]; omega
    have hnm : n - m = 0 := by omega
    have hmin : min n m = n := by omega
    simp only [compose, if_neg h, applyDelta]
    rw [ih (doc.drop n) (by simp only [baseLen, opBase, List.length_drop]; omega)
        (by simp only [applyDelta, List.length_append, hdtlen, hdd]; omega)]
    simp only [applyDelta, hdd, List.take_append_eq_append_take, List.drop_append_eq_append_drop,
      hTlen, hnm, List.take_zero, List.drop_zero, List.append_nil, List.take_take, hmin,
      List.drop_take]
  | case13 m a n b h ih =>
    intro doc ha hb
    simp only [baseLen, opBase] at ha hb
    have hm : m ≤ doc.length := by omega
    have hTlen : (doc.take m).length = m := by simp only [List.length_take]; omega
    simp only [applyDelta, List.length_append, hTlen] at hb
    simp only [compose, if_pos h, applyDelta]
    rw [ih (doc.drop m) (by simp only [List.length_drop]; omega)
        (by simp only [baseLen, opBase]; omega)]
    simp only [applyDelta, List.drop_append_eq_append_drop, hTlen,
      List.drop_of_length_le (show (doc.take m).length ≤ n by omega), List.nil_append]
  | case14 m a n b h ih =>
    intro doc ha hb
    simp only [baseLen, opBase] at ha hb
    have hm : m ≤ doc.length := by omega
    have hTlen : (doc.take m).length = m := by simp only [List.length_take]; omega
    simp only [applyDelta, List.length_append, hTlen] at hb
    have hdd : (doc.drop n).drop (m - n) = doc.drop m := by
      rw [List.drop_drop]; congr 1; omega
    have hdtlen : ((doc.drop n).take (m - n)).length = m - n := by
      simp only [List.length_take, List.length_drop]; omega
    have hnm : n - m = 0 := by omega
    simp only [compose, if_neg h, applyDelta]
    rw [ih (doc.drop n) (by simp only [baseLen, opBase, List.length_drop]; omega)
        (by simp only [applyDelta, List.length_append, hdtlen, hdd]; omega)]
    simp only [applyDelta, hdd, List.drop_append_eq_append_drop, hTlen, hnm,
      List.drop_zero, List.drop_take]

/-- The base span of a composition: `compose a b` consumes at most the base
of `a` plus whatever of `b`'s base reaches past `a`'s output. -/
theorem baseLen_compose_le (a b : Delta) :
    baseLen (compose a b) ≤ baseLen a + (baseLen b - targetLen a) := by
  induction a, b using compose.induct with
  | case1 a => simp [compose, baseLen, targetLen]
  | case2 a s b ih =>
    simp only [compose, baseLen, targetLen, opBase, opTarget, Nat.zero_add] at ih ⊢
    omega
  | case3 n b ih =>
    simp only [compose, baseLen, targetLen, opBase, opTarget] at ih ⊢
    omega
  | case4 n b ih =>
    simp only [compose, baseLen, targetLen, opBase, opTarget] at ih ⊢
    omega
  | case5 k a n b ih =>
    simp only [compose, baseLen, targetLen, opBase, opTarget] at ih ⊢
    omega
  | case6 k a n b ih =>
    simp only [compose, baseLen, targetLen, opBase, opTarget] at ih ⊢
    omega
  | case7 s a n b h ih =>
    simp only [compose, if_pos h, baseLen, targetLen, opBase, opTarget] at ih ⊢
    omega
  | case8 s a n b h ih =>
    simp only [compose, if_neg h, baseLen, targetLen, opBase, opTarget,
      List.length_drop, List.length_take] at ih ⊢
    omega
  | case9 s a n b h ih =>
    simp only [compose, if_pos h, baseLen, targetLen, opBase, opTarget] at ih ⊢
    omega
  | case10 s a n b h ih =>
    simp only [compose, if_neg h, baseLen, targetLen, opBase, opTarget,
      List.length_drop] at ih ⊢
    omega
  | case11 m a n b h ih =>
    simp only [compose, if_pos h, baseLen, targetLen, opBase, opTarget] at ih ⊢
    omega
  | case12 m a n b h ih =>
    simp only [compose, if_neg h, baseLen, targetLen, opBase, opTarget] at ih ⊢
    omega
  | case13 m a n b h ih =>
    simp only [compose, if_pos h, baseLen, targetLen, opBase, opTarget] at ih ⊢
    omega
  | case14 m a n b h ih =>
    simp only [compose, if_neg h, baseLen, targetLen, opBase, opTarget] at ih ⊢
    omega

/-- Chained coalescing is independent of the order of grouping: composing
`(a b) c` or `a (b c)` yields operations with the same effect on every
document the chain fits. -/
theorem applyDelta_compose_assoc (a b c : Delta) (doc : List Char)
    (ha : baseLen a ≤ doc.length) (hb : baseLen b ≤ (applyDelta a doc).length)
    (hc : baseLen c ≤ (applyDelta b (applyDelta a doc)).length) :
    applyDelta (compose (compose a b) c) doc = applyDelta (compose a (compose b c)) doc := by
  have hab : baseLen (compose a b) ≤ doc.length := by
    have h1 := baseLen_compose_le a b
    have h2 := applyDelta_length a doc ha
    omega
  have hbc : baseLen (compose b c) ≤ (applyDelta a doc).length := by
    have h1 := baseLen_compose_le b c
    have h2 := applyDelta_length b (applyDelta a doc) hb
    omega
  have e1 := applyDelta_compose a b doc ha hb
  have hc' : baseLen c ≤ (applyDelta (compose a b) doc).length := by rw [e1]; exact hc
  rw [applyDelta_compose (compose a b) c doc hab hc', e1,
    applyDelta_compose a (compose b c) doc ha hbc,
    applyDelta_compose b c (applyDelta a doc) hb hc]

/-! ### Throttle invariants along a session run -/

theorem chain'_snoc_of_forall {α : Type} {R : α → α → Prop} (l : List α) (x : α)
    (hc : List.Chain' R l) (hf : ∀ y ∈ l, R y x) : List.Chain' R (l ++ [x]) := by
  rw [List.chain'_append]
  refine ⟨hc, List.chain'_singleton x, ?_⟩
  intro y hy z hz
  simp only [List.head?_cons, Option.mem_def, Option.some.injEq] at hz
  subst hz
  exact hf y (List.mem_of_mem_getLast? hy)

theorem contentInv_init (o w : Bool) : ContentInv (initState o w) := by
  simp [ContentInv, initState]

theorem contentInv_step (s : EditorState) (e : Ev)
    (hI : ContentInv s) (hv : evValid s e = true) : ContentInv (stepEv s e) := by
  obtain ⟨h1, h2, h3, h4⟩ := hI
  cases e with
  | contentChange t src d =>
    simp only [evValid, decide_eq_true_eq] at hv
    simp only [stepEv, evTime, handleContentChange]
    by_cases hsrc : src ≠ "user"
    · simp only [if_pos hsrc]
      exact ⟨by simpa using le_trans h1 hv, h2, h3, h4⟩
    · simp only [if_neg hsrc]
      by_cases hgap : THROTTLE_INTERVAL ≤ t - s.lastSendTime
      · simp only [if_pos hgap, sendPendingDelta, debouncedSave]
        refine ⟨le_refl t, ?_, by simp, ?_⟩
        · intro p hp
          by_cases hso : s.sockOpen
          · simp only [hso, if_true, List.mem_append, List.mem_singleton] at hp
            rcases hp with hp | hp
            · exact le_trans (h2 p hp) (le_trans h1 hv)
            · subst hp; rfl
          · simp only [hso, if_false] at hp
            exact le_trans (h2 p hp) (le_trans h1 hv)
        · by_cases hso : s.sockOpen
          · simp only [hso, if_true]
            refine chain'_snoc_of_forall _ _ h4 ?_
            intro y hy
            have := h2 y hy
            omega
          · simpa only [hso, if_false] using h4
      · simp only [if_neg hgap, debouncedSave]
        refine ⟨le_trans h1 hv, h2, ?_, h4⟩
        intro _
        have hts : t + (THROTTLE_INTERVAL - (t - s.lastSendTime)) =
            s.lastSendTime + THROTTLE_INTERVAL := by
          have := le_trans h1 hv
          omega
        simp [hts]
  | contentTimer t =>
    simp only [evValid, Bool.and_eq_true, decide_eq_true_eq] at hv
    obtain ⟨hclk, hdue⟩ := hv
    simp only [stepEv, evTime, contentTimerFire, sendPendingDelta]
    cases hpd : s.pendingDelta with
    | none =>
      exact ⟨le_trans h1 hclk, h2, by simp, h4⟩
    | some d =>
      have htm := h3 (by simp [hpd])
      rw [htm] at hdue
      simp only [timerDue, decide_eq_true_eq] at hdue
      refine ⟨le_refl t, ?_, by simp, ?_⟩
      · intro p hp
        by_cases hso : s.sockOpen
        · simp only [hso, if_true, List.mem_append, List.mem_singleton] at hp
          rcases hp with hp | hp
          · exact le_trans (h2 p hp) (le_trans h1 hclk)
          · subst hp; rfl
        · simp only [hso, if_false] at hp
          exact le_trans (h2 p hp) (le_trans h1 hclk)
      · by_cases hso : s.sockOpen
        · simp only [hso, if_true]
          refine chain'_snoc_of_forall _ _ h4 ?_
          intro y hy
          have := h2 y hy
          omega
        · simpa only [hso, if_false] using h4
  | titleInput t =>
    simp only [evValid, decide_eq_true_eq] at hv
    simp only [stepEv, evTime, debouncedSave]
    exact ⟨le_trans h1 hv, h2, h3, h4⟩
  | saveTimer t ok =>
    simp only [evValid, Bool.and_eq_true, decide_eq_true_eq] at hv
    simp only [stepEv, evTime, saveTimerFire]
    exact ⟨le_trans h1 hv.1, h2, h3, h4⟩
  | selection t r =>
    simp only [evValid, decide_eq_true_eq] at hv
    simp only [stepEv, evTime, handleSelectionChange]
    cases r with
    | none => exact ⟨le_trans h1 hv, h2, h3, h4⟩
    | some rr =>
      by_cases hg : !({ s with clock := t } : EditorState).sockOpen ||
          !({ s with clock := t } : EditorState).canWrite
      · simp only [if_pos hg]
        exact ⟨le_trans h1 hv, h2, h3, h4⟩
      · simp only [if_neg hg]
        by_cases htm : (({ s with clock := t, pendingCursor := some rr } :
            EditorState).cursorThrottleTimer).isSome
        · simp only [if_pos htm]
          exact ⟨le_trans h1 hv, h2, h3, h4⟩
        · simp only [if_neg htm]
          exact ⟨le_trans h1 hv, h2, h3, h4⟩
  | cursorTimer t =>
    simp only [evValid, Bool.and_eq_true, decide_eq_true_eq] at hv
    simp only [stepEv, evTime, cursorTimerFire]
    cases s.pendingCursor with
    | none => exact ⟨le_trans h1 hv.1, h2, h3, h4⟩
    | some cc =>
      by_cases hso : s.sockOpen
      · simp only [hso, if_true]
        exact ⟨le_trans h1 hv.1, h2, h3, h4⟩
      · simp only [hso, if_false]
        exact ⟨le_trans h1 hv.1, h2, h3, h4⟩

theorem contentInv_run : ∀ (evs : List Ev) (s : EditorState),
    ContentInv s → validRun s evs = true → ContentInv (run s evs) := by
  intro evs
  induction evs with
  | nil => intro s h _; exact h
  | cons e es ih =>
    intro s h hv
    simp only [validRun, Bool.and_eq_true] at hv
    exact ih (stepEv s e) (contentInv_step s e h hv.1) hv.2

theorem cursorInv_init (o w : Bool) : CursorInv (initState o w) := by
  simp [CursorInv, initState]

theorem cursorInv_step (s : EditorState) (e : Ev)
    (hI : CursorInv s) (hv : evValid s e = true) : CursorInv (stepEv s e) := by
  obtain ⟨h1, h2, h3⟩ := hI
  have hmono : ∀ t : Nat, s.clock ≤ t → ∀ p ∈ s.sentCursor, p.1 ≤ t :=
    fun t ht p hp => le_trans (h1 p hp) ht
  cases e with
  | contentChange t src d =>
    simp only [evValid, decide_eq_true_eq] at hv
    simp only [stepEv, evTime, handleContentChange]
    by_cases hsrc : src ≠ "user"
    · simp only [if_pos hsrc]
      exact ⟨hmono t hv, h2, h3⟩
    · simp only [if_neg hsrc]
      by_cases hgap : THROTTLE_INTERVAL ≤ t - s.lastSendTime
      · simp only [if_pos hgap, sendPendingDelta, debouncedSave]
        cases s.pendingDelta <;> exact ⟨hmono t hv, h2, h3⟩
      · simp only [if_neg hgap, debouncedSave]
        exact ⟨hmono t hv, h2, h3⟩
  | contentTimer t =>
    simp only [evValid, Bool.and_eq_true, decide_eq_true_eq] at hv
    simp only [stepEv, evTime, contentTimerFire, sendPendingDelta]
    cases s.pendingDelta <;> exact ⟨hmono t hv.1, h2, h3⟩
  | titleInput t =>
    simp only [evValid, decide_eq_true_eq] at hv
    simp only [stepEv, evTime, debouncedSave]
    exact ⟨hmono t hv, h2, h3⟩
  | saveTimer t ok =>
    simp only [evValid, Bool.and_eq_true, decide_eq_true_eq] at hv
    simp only [stepEv, evTime, saveTimerFire]
    exact ⟨hmono t hv.1, h2, h3⟩
  | selection t r =>
    simp only [evValid, decide_eq_true_eq] at hv
    simp only [stepEv, evTime, handleSelectionChange]
    cases r with
    | none => exact ⟨hmono t hv, h2, h3⟩
    | some rr =>
      by_cases hg : !({ s with clock := t } : EditorState).sockOpen ||
          !({ s with clock := t } : EditorState).canWrite
      · simp only [if_pos hg]
        exact ⟨hmono t hv, h2, h3⟩
      · simp only [if_neg hg]
        by_cases htm : (({ s with clock := t, pendingCursor := some rr } :
            EditorState).cursorThrottleTimer).isSome
        · simp only [if_pos htm]
          exact ⟨hmono t hv, h2, h3⟩
        · simp only [if_neg htm]
          refine ⟨hmono t hv, ?_, h3⟩
          intro sched hsched p hp
          simp only [Option.some.injEq] at hsched
          have := hmono t hv p hp
          omega
  | cursorTimer t =>
    simp only [evValid, Bool.and_eq_true, decide_eq_true_eq] at hv
    obtain ⟨hclk, hdue⟩ := hv
    simp only [stepEv, evTime, cursorTimerFire]
    cases htm : s.cursorThrottleTimer with
    | none => rw [htm] at hdue; simp [timerDue] at hdue
    | some sched =>
      rw [htm] at hdue
      simp only [timerDue, decide_eq_true_eq] at hdue
      cases s.pendingCursor with
      | none =>
        exact ⟨hmono t hclk, by simp, h3⟩
      | some cc =>
        by_cases hso : s.sockOpen
        · simp only [hso, if_true]
          refine ⟨?_, by simp, ?_⟩
          · intro p hp
            simp only [List.mem_append, List.mem_singleton] at hp
            rcases hp with hp | hp
            · exact le_trans (h1 p hp) hclk
            · subst hp; rfl
          · refine chain'_snoc_of_forall _ _ h3 ?_
            intro y hy
            have := h2 sched htm y hy
            omega
        · simp only [hso, if_false]
          exact ⟨hmono t hclk, by simp, h3⟩

theorem cursorInv_run : ∀ (evs : List Ev) (s : EditorState),
    CursorInv s → validRun s evs = true → CursorInv (run s evs) := by
  intro evs
  induction evs with
  | nil => intro s h _; exact h
  | cons e es ih =>
    intro s h hv
    simp only [validRun, Bool.and_eq_true] at hv
    exact ih (stepEv s e) (cursorInv_step s e h hv.1) hv.2

theorem mapSet_any (m : List (String × PresenceUser)) (k : String) (v : PresenceUser)
    (h : m.any (fun p => p.1 = k) = true) :
    mapKeys (mapSet m k v) = mapKeys m := by
  simp only [mapSet, h, if_true, mapKeys, List.map_map]
  apply List.map_congr_left
  intro p _
  by_cases hp : p.1 = k
  · simp [Function.comp, hp]
  · simp [Function.comp, hp]

theorem mapSet_not_any (m : List (String × PresenceUser)) (k : String) (v : PresenceUser)
    (h : m.any (fun p => p.1 = k) = false) :
    mapSet m k v = m ++ [(k, v)] := by
  simp only [mapSet, h, Bool.false_eq_true, if_false]

theorem any_eq_mem_keys (m : List (String × PresenceUser)) (k : String) :
    m.any (fun p => p.1 = k) = true ↔ k ∈ mapKeys m := by
  simp only [List.any_eq_true, decide_eq_true_eq, mapKeys, List.mem_map]

theorem mem_mapKeys_mapSet (m : List (String × PresenceUser)) (k k' : String)
    (v : PresenceUser) :
    k' ∈ mapKeys (mapSet m k v) ↔ k' ∈ mapKeys m ∨ k' = k := by
  cases h : m.any (fun p => p.1 = k) with
  | true =>
    rw [mapSet_any m k v h]
    have hk : k ∈ mapKeys m := (any_eq_mem_keys m k).mp h
    constructor
    · exact fun hh => Or.inl hh
    · rintro (hh | hh)
      · exact hh
      · rw [hh]; exact hk
  | false =>
    rw [mapSet_not_any m k v h]
    simp [mapKeys]

theorem nodup_mapKeys_mapSet (m : List (String × PresenceUser)) (k : String)
    (v : PresenceUser) (h : (mapKeys m).Nodup) : (mapKeys (mapSet m k v)).Nodup := by
  cases ha : m.any (fun p => p.1 = k) with
  | true => rw [mapSet_any m k v ha]; exact h
  | false =>
    rw [mapSet_not_any m k v ha]
    have hk : k ∉ mapKeys m := fun hmem =>
      by rw [(any_eq_mem_keys m k).mpr hmem] at ha; cases ha
    simp only [mapKeys, List.map_append, List.map_cons, List.map_nil]
    rw [List.nodup_append]
    refine ⟨h, List.nodup_singleton k, ?_⟩
    intro x hx hx'
    simp only [List.mem_singleton] at hx'
    subst hx'
    exact hk hx

theorem mapGet_isSome_iff (m : List (String × PresenceUser)) (k : String) :
    (mapGet m k).isSome = true ↔ k ∈ mapKeys m := by
  unfold mapGet
  cases hf : m.find? (fun p => p.1 = k) with
  | none =>
    simp only [Option.map_none', Option.isSome_none, Bool.false_eq_true, false_iff]
    intro hk
    rcases List.mem_map.mp hk with ⟨p, hp, he⟩
    have hnone := List.find?_eq_none.mp hf p hp
    simp [he] at hnone
  | some p =>
    simp only [Option.map_some', Option.isSome_some, true_iff]
    have hpred := List.find?_some hf
    have hmem := List.mem_of_find?_eq_some hf
    simp only [decide_eq_true_eq] at hpred
    exact List.mem_map.mpr ⟨p, hmem, hpred⟩

theorem mem_mapKeys_presenceSyncUsers_aux (users : List PresenceUser) :
    ∀ (m : List (String × PresenceUser)) (k : String),
    k ∈ mapKeys (users.foldl (fun m u => mapSet m u.user_id u) m) ↔
      k ∈ mapKeys m ∨ k ∈ users.map (fun u => u.user_id) := by
  induction users with
  | nil => intro m k; simp [List.foldl]
  | cons u us ih =>
    intro m k
    simp only [List.foldl_cons, List.map_cons, List.mem_cons]
    rw [ih (mapSet m u.user_id u) k, mem_mapKeys_mapSet]
    tauto

theorem nodup_mapKeys_presenceSyncUsers_aux (users : List PresenceUser) :
    ∀ m : List (String × PresenceUser), (mapKeys m).Nodup →
    (mapKeys (users.foldl (fun m u => mapSet m u.user_id u) m)).Nodup := by
  induction users with
  | nil => intro m h; exact h
  | cons u us ih =>
    intro m h
    exact ih (mapSet m u.user_id u) (nodup_mapKeys_mapSet m u.user_id u h)

theorem keyed_mapSet (m : List (String × PresenceUser)) (k : String) (v : PresenceUser)
    (hv : v.user_id = k) (h : ∀ p ∈ m, p.2.user_id = p.1) :
    ∀ p ∈ mapSet m k v, p.2.user_id = p.1 := by
  intro p hp
  cases ha : m.any (fun q => q.1 = k) with
  | true =>
    simp only [mapSet, ha, if_true] at hp
    rcases List.mem_map.mp hp with ⟨q, hq, he⟩
    subst he
    by_cases hqk : q.1 = k
    · simp [hqk, hv]
    · simpa [hqk] using h q hq
  | false =>
    rw [mapSet_not_any m k v ha] at hp
    rcases List.mem_append.mp hp with hp | hp
    · exact h p hp
    · simp only [List.mem_singleton] at hp
      subst hp
      exact hv

theorem keyed_presenceSyncUsers_aux (users : List PresenceUser) :
    ∀ m : List (String × PresenceUser), (∀ p ∈ m, p.2.user_id = p.1) →
    ∀ p ∈ users.foldl (fun m u => mapSet m u.user_id u) m, p.2.user_id = p.1 := by
  induction users with
  | nil => intro m h; exact h
  | cons u us ih =>
    intro m h
    exact ih (mapSet m u.user_id u) (keyed_mapSet m u.user_id u rfl h)

theorem mapGet_eq_some_mem (m : List (String × PresenceUser)) (k : String)
    (v : PresenceUser) (h : mapGet m k = some v) : (k, v) ∈ m := by
  simp only [mapGet, Option.map_eq_some'] at h
  obtain ⟨p, hp, he⟩ := h
  have hmem := List.mem_of_find?_eq_some hp
  have hpred := List.find?_some hp
  simp only [decide_eq_true_eq] at hpred
  subst he
  rw [← hpred]
  exact hmem

/-- C1: two content operations arriving within one throttle window are
coalesced into their composition (`pendingDelta := compose(pendingDelta,
delta)`); composing op A then op B yields an op whose application to a base
document the operations fit equals applying A then B sequentially; and
composition is associative in effect, so chained coalescing is independent
of the order of grouping. -/
theorem C1_compose_coalescing :
    (∀ (s : EditorState) (now : Nat) (d p : Delta),
      s.pendingDelta = some p →
      now - s.lastSendTime < THROTTLE_INTERVAL →
      (handleContentChange now "user" d s).pendingDelta = some (compose p d)) ∧
    (∀ (a b : Delta) (doc : List Char),
      baseLen a ≤ doc.length → baseLen b ≤ (applyDelta a doc).length →
      applyDelta (compose a b) doc = applyDelta b (applyDelta a doc)) ∧
    (∀ (a b c : Delta) (doc : List Char),
      baseLen a ≤ doc.length → baseLen b ≤ (applyDelta a doc).length →
      baseLen c ≤ (applyDelta b (applyDelta a doc)).length →
      applyDelta (compose (compose a b) c) doc =
        applyDelta (compose a (compose b c)) doc) := by
  refine ⟨?_, fun a b => applyDelta_compose a b, applyDelta_compose_assoc⟩
  intro s now d p hp hlt
  simp only [handleContentChange, hp, debouncedSave]
  rw [if_neg (by simp), if_neg (by omega)]

theorem C1_compose_coalescing_witness :
    (handleContentChange 120 "user" [Op.retain 1, Op.insert ['b']]
        c1State).pendingDelta =
      some (compose [Op.insert ['a']] [Op.retain 1, Op.insert ['b']]) ∧
    applyDelta (compose [Op.insert ['a', 'b']] [Op.retain 1, Op.delete 1]) [] =
      applyDelta [Op.retain 1, Op.delete 1] (applyDelta [Op.insert ['a', 'b']] []) ∧
    applyDelta (compose (compose [Op.insert ['a', 'b']] [Op.retain 1, Op.delete 1])
        [Op.insert ['z']]) [] =
      applyDelta (compose [Op.insert ['a', 'b']]
        (compose [Op.retain 1, Op.delete 1] [Op.insert ['z']])) [] :=
  ⟨C1_compose_coalescing.1 c1State 120 [Op.retain 1, Op.insert ['b']]
      [Op.insert ['a']] rfl (by decide),
   C1_compose_coalescing.2.1 [Op.insert ['a', 'b']] [Op.retain 1, Op.delete 1] []
      (by decide) (by decide),
   C1_compose_coalescing.2.2 [Op.insert ['a', 'b']] [Op.retain 1, Op.delete 1]
      [Op.insert ['z']] [] (by decide) (by decide) (by decide)⟩

/-- C2: the content throttle flushes immediately when `THROTTLE_INTERVAL`
has elapsed since the last send and otherwise arms a single trailing flush
for the remaining time; along any valid session run the sent operations
are at least one `THROTTLE_INTERVAL` apart, a pending delta always has its
flush armed, and firing that flush sends exactly the pending composed
delta (no dropped trailing edit). -/
theorem C2_content_throttle :
    (∀ (s : EditorState) (now : Nat) (d : Delta),
      s.lastSendTime ≤ now →
      (THROTTLE_INTERVAL ≤ now - s.lastSendTime →
        (handleContentChange now "user" d s).pendingDelta = none ∧
        (handleContentChange now "user" d s).lastSendTime = now) ∧
      (now - s.lastSendTime < THROTTLE_INTERVAL →
        (handleContentChange now "user" d s).throttleTimeout =
          some (s.lastSendTime + THROTTLE_INTERVAL) ∧
        (handleContentChange now "user" d s).sent = s.sent)) ∧
    (∀ (o w : Bool) (evs : List Ev), validRun (initState o w) evs = true →
      List.Chain' (fun p q => p.1 + THROTTLE_INTERVAL ≤ q.1)
        (run (initState o w) evs).sent ∧
      ((run (initState o w) evs).pendingDelta.isSome →
        (run (initState o w) evs).throttleTimeout =
          some ((run (initState o w) evs).lastSendTime + THROTTLE_INTERVAL))) ∧
    (∀ (s : EditorState) (t : Nat) (d : Delta),
      s.pendingDelta = some d → s.sockOpen = true →
      (contentTimerFire t s).pendingDelta = none ∧
      (contentTimerFire t s).sent = s.sent ++ [(t, d)]) := by
  refine ⟨?_, ?_, ?_⟩
  · intro s now d hle
    constructor
    · intro hgap
      simp only [handleContentChange, debouncedSave, sendPendingDelta]
      rw [if_neg (by simp), if_pos hgap]
      exact ⟨rfl, rfl⟩
    · intro hgap
      simp only [handleContentChange, debouncedSave]
      rw [if_neg (by simp), if_neg (by omega)]
      refine ⟨?_, rfl⟩
      have h2 : now + (THROTTLE_INTERVAL - (now - s.lastSendTime)) =
          s.lastSendTime + THROTTLE_INTERVAL := by omega
      simp only [h2]
  · intro o w evs hv
    have hI := contentInv_run evs (initState o w) (contentInv_init o w) hv
    exact ⟨hI.2.2.2, hI.2.2.1⟩
  · intro s t d hp hso
    simp [contentTimerFire, sendPendingDelta, hp, hso]

theorem C2_content_throttle_witness :
    ((THROTTLE_INTERVAL ≤ 200 - (initState true true).lastSendTime →
        (handleContentChange 200 "user" [Op.insert ['a']]
          (initState true true)).pendingDelta = none ∧
        (handleContentChange 200 "user" [Op.insert ['a']]
          (initState true true)).lastSendTime = 200) ∧
      (200 - (initState true true).lastSendTime < THROTTLE_INTERVAL →
        (handleContentChange 200 "user" [Op.insert ['a']]
          (initState true true)).throttleTimeout =
          some ((initState true true).lastSendTime + THROTTLE_INTERVAL) ∧
        (handleContentChange 200 "user" [Op.insert ['a']]
          (initState true true)).sent = (initState true true).sent)) ∧
    (List.Chain' (fun p q => p.1 + THROTTLE_INTERVAL ≤ q.1)
      (run (initState true true) [Ev.contentChange 10 "user" [Op.insert ['a']]]).sent ∧
      ((run (initState true true)
          [Ev.contentChange 10 "user" [Op.insert ['a']]]).pendingDelta.isSome →
        (run (initState true true)
            [Ev.contentChange 10 "user" [Op.insert ['a']]]).throttleTimeout =
          some ((run (initState true true)
              [Ev.contentChange 10 "user" [Op.insert ['a']]]).lastSendTime +
            THROTTLE_INTERVAL))) ∧
    ((contentTimerFire 150 c2State).pendingDelta = none ∧
      (contentTimerFire 150 c2State).sent =
        (initState true true).sent ++ [(150, [Op.insert ['a']])]) :=
  ⟨C2_content_throttle.1 (initState true true) 200 [Op.insert ['a']] (by decide),
   C2_content_throttle.2.1 true true [Ev.contentChange 10 "user" [Op.insert ['a']]]
     (by decide),
   C2_content_throttle.2.2 c2State 150 [Op.insert ['a']] rfl rfl⟩

/-- C3 (counterexample): the close-code handler does not map the eight
codes 1:1 — `AUTH_FAILED` (4001) and `TOKEN_EXPIRED` (4002) produce the
identical client-visible behavior, as do `INVALID_MESSAGE` (4006) and
`MESSAGE_TOO_LARGE` (4007), which both reach the default branch. -/
theorem C3_close_code_mapping_cex :
    WS_CLOSE_CODES.AUTH_FAILED ≠ WS_CLOSE_CODES.TOKEN_EXPIRED ∧
    handleWsError WS_CLOSE_CODES.AUTH_FAILED none =
      handleWsError WS_CLOSE_CODES.TOKEN_EXPIRED none ∧
    WS_CLOSE_CODES.INVALID_MESSAGE ≠ WS_CLOSE_CODES.MESSAGE_TOO_LARGE ∧
    handleWsError WS_CLOSE_CODES.INVALID_MESSAGE none =
      handleWsError WS_CLOSE_CODES.MESSAGE_TOO_LARGE none := by
  decide

/-- C3 (amended): the eight application close codes are pairwise distinct,
and the handler maps them onto exactly six distinct behaviors: 4001 and
4002 share the re-login behavior, 4006 and 4007 share the generic default,
and all other pairs of distinct codes behave differently. -/
theorem C3_close_codes_amended :
    wsCloseCodeList.Nodup ∧
    (∀ code ∈ wsCloseCodeList, ∀ code' ∈ wsCloseCodeList,
      (handleWsError code none = handleWsError code' none ↔
        (code = code' ∨
          (code ∈ [4001, 4002] ∧ code' ∈ [4001, 4002]) ∨
          (code ∈ [4006, 4007] ∧ code' ∈ [4006, 4007])))) := by
  decide

theorem C3_close_codes_amended_witness :
    handleWsError 4001 none = handleWsError 4002 none ↔
      ((4001 : Nat) = 4002 ∨
        ((4001 : Nat) ∈ [4001, 4002] ∧ (4002 : Nat) ∈ [4001, 4002]) ∨
        ((4001 : Nat) ∈ [4006, 4007] ∧ (4002 : Nat) ∈ [4006, 4007])) :=
  C3_close_codes_amended.2 4001 (by decide) 4002 (by decide)

/-- C4: the persistence debounce arms a save 1500 ms after the latest
activity — every content edit or title keystroke re-arms it — the armed
save only fires once its scheduled time is reached, a failed save leaves
the user-visible error status with no timer re-armed (no automatic retry),
and the next keystroke re-arms the debounce. -/
theorem C4_persistence_debounce :
    (∀ (s : EditorState) (now : Nat),
      (debouncedSave now s).debounceTimeout = some (now + 1500) ∧
      (debouncedSave now s).saveStatus = .unsaved) ∧
    (∀ (s : EditorState) (now : Nat) (d : Delta),
      (handleContentChange now "user" d s).debounceTimeout = some (now + 1500)) ∧
    (∀ (s : EditorState) (t : Nat) (ok : Bool),
      evValid s (.saveTimer t ok) = true →
      ∃ sched, s.debounceTimeout = some sched ∧ sched ≤ t) ∧
    (∀ s : EditorState,
      (saveTimerFire false s).saveStatus = .error ∧
      (saveTimerFire false s).debounceTimeout = none) ∧
    (∀ (s : EditorState) (now : Nat),
      (debouncedSave now (saveTimerFire false s)).debounceTimeout =
        some (now + 1500)) := by
  refine ⟨fun s now => ⟨rfl, rfl⟩, ?_, ?_, fun s => ⟨rfl, rfl⟩, fun s now => rfl⟩
  · intro s now d
    simp only [handleContentChange, debouncedSave]
    rw [if_neg (by simp)]
  · intro s t ok hv
    simp only [evValid, Bool.and_eq_true, decide_eq_true_eq] at hv
    obtain ⟨hclk, hdue⟩ := hv
    cases hd : s.debounceTimeout with
    | none => rw [hd] at hdue; simp [timerDue] at hdue
    | some sched =>
      rw [hd] at hdue
      simp only [timerDue, decide_eq_true_eq] at hdue
      exact ⟨sched, rfl, hdue⟩

theorem C4_persistence_debounce_witness :
    ((debouncedSave 7 (initState true true)).debounceTimeout = some (7 + 1500) ∧
      (debouncedSave 7 (initState true true)).saveStatus = .unsaved) ∧
    (handleContentChange 9 "user" [Op.insert ['a']]
        (initState true true)).debounceTimeout = some (9 + 1500) ∧
    (∃ sched, c4State.debounceTimeout = some sched ∧ sched ≤ 1600) ∧
    ((saveTimerFire false c4State).saveStatus = .error ∧
      (saveTimerFire false c4State).debounceTimeout = none) ∧
    (debouncedSave 2000 (saveTimerFire false c4State)).debounceTimeout =
      some (2000 + 1500) :=
  ⟨C4_persistence_debounce.1 (initState true true) 7,
   C4_persistence_debounce.2.1 (initState true true) 9 [Op.insert ['a']],
   C4_persistence_debounce.2.2.1 c4State 1600 false (by decide),
   C4_persistence_debounce.2.2.2.1 c4State,
   C4_persistence_debounce.2.2.2.2 c4State 2000⟩

/-- C5: the cursor throttle has replacement semantics — a new selection
overwrites the pending cursor entirely, along any valid session run at most
one cursor message is sent per `CURSOR_THROTTLE_INTERVAL` window, and the
message sent by the timer carries exactly the last recorded
{index, length}. -/
theorem C5_cursor_throttle :
    (∀ (s : EditorState) (now : Nat) (r : Nat × Nat),
      s.sockOpen = true → s.canWrite = true →
      (handleSelectionChange now (some r) s).pendingCursor = some r) ∧
    (∀ (o w : Bool) (evs : List Ev), validRun (initState o w) evs = true →
      List.Chain' (fun p q => p.1 + CURSOR_THROTTLE_INTERVAL ≤ q.1)
        (run (initState o w) evs).sentCursor) ∧
    (∀ (s : EditorState) (t : Nat) (cpos : Nat × Nat),
      s.pendingCursor = some cpos → s.sockOpen = true →
      (cursorTimerFire t s).sentCursor = s.sentCursor ++ [(t, cpos)] ∧
      (cursorTimerFire t s).pendingCursor = none) := by
  refine ⟨?_, ?_, ?_⟩
  · intro s now r hso hcw
    simp only [handleSelectionChange, hso, hcw, Bool.not_true, Bool.or_self,
      Bool.false_eq_true, if_false]
    by_cases htm : s.cursorThrottleTimer.isSome
    · rw [if_pos htm]
    · rw [if_neg htm]
  · intro o w evs hv
    exact (cursorInv_run evs (initState o w) (cursorInv_init o w) hv).2.2
  · intro s t cpos hp hso
    simp [cursorTimerFire, hp, hso]

theorem C5_cursor_throttle_witness :
    (handleSelectionChange 10 (some (3, 0)) (initState true true)).pendingCursor =
      some (3, 0) ∧
    List.Chain' (fun p q => p.1 + CURSOR_THROTTLE_INTERVAL ≤ q.1)
      (run (initState true true)
        [Ev.selection 10 (some (3, 0)), Ev.selection 20 (some (5, 1)),
         Ev.cursorTimer 160]).sentCursor ∧
    ((cursorTimerFire 160
        { (initState true true) with pendingCursor := some (5, 1) }).sentCursor =
      (initState true true).sentCursor ++ [(160, (5, 1))] ∧
      (cursorTimerFire 160
        { (initState true true) with pendingCursor := some (5, 1) }).pendingCursor =
        none) :=
  ⟨C5_cursor_throttle.1 (initState true true) 10 (3, 0) rfl rfl,
   C5_cursor_throttle.2.1 true true
     [Ev.selection 10 (some (3, 0)), Ev.selection 20 (some (5, 1)),
      Ev.cursorTimer 160] (by decide),
   C5_cursor_throttle.2.2 { (initState true true) with pendingCursor := some (5, 1) }
     160 (5, 1) rfl rfl⟩

/-- C6: on a read-only session every selection change is rejected locally —
the handler leaves the state untouched: no cursor message, no armed
throttle timer, no recorded pending cursor. -/
theorem C6_readonly_selection_noop (s : EditorState) (now : Nat)
    (range : Option (Nat × Nat)) (h : s.canWrite = false) :
    handleSelectionChange now range s = s := by
  cases range with
  | none => rfl
  | some r => simp [handleSelectionChange, h]

theorem C6_readonly_selection_noop_witness :
    handleSelectionChange 5 (some (1, 2)) (initState true false) =
      initState true false :=
  C6_readonly_selection_noop (initState true false) 5 (some (1, 2)) rfl

/-- C7: the WebSocket URL is independent of the bearer token — any two
token values yield the same URL — and the token travels only in the
connection subprotocol list, never in the URL. -/
theorem C7_token_out_of_band (proto doc t1 t2 : String) :
    (wsConnectionArgs proto doc t1).1 = (wsConnectionArgs proto doc t2).1 ∧
    (wsConnectionArgs proto doc t1).1 = wsUrl proto doc ∧
    (wsConnectionArgs proto doc t1).2 = ["access_token." ++ t1] :=
  ⟨rfl, rfl, rfl⟩

/-- C8: `onDestroy` cancels the persistence debounce, the content throttle
and the cursor throttle timers; and calling `sendPendingDelta` with a
non-open socket sends nothing and leaves no pending delta behind (a no-op
clear, not a crash). -/
theorem C8_teardown_cancels_timers (s : EditorState) (now : Nat) :
    ((onDestroy now s).debounceTimeout = none ∧
      (onDestroy now s).throttleTimeout = none ∧
      (onDestroy now s).cursorThrottleTimer = none) ∧
    (s.sockOpen = false →
      (sendPendingDelta now s).sent = s.sent ∧
      (sendPendingDelta now s).pendingDelta = none) := by
  constructor
  · exact ⟨rfl, rfl, rfl⟩
  · intro hso
    cases hp : s.pendingDelta with
    | none => simp [sendPendingDelta, hp]
    | some d => simp [sendPendingDelta, hp, hso]

theorem C8_teardown_cancels_timers_witness :
    ((onDestroy 9 c8State).debounceTimeout = none ∧
      (onDestroy 9 c8State).throttleTimeout = none ∧
      (onDestroy 9 c8State).cursorThrottleTimer = none) ∧
    ((sendPendingDelta 9 c8State).sent = c8State.sent ∧
      (sendPendingDelta 9 c8State).pendingDelta = none) :=
  ⟨(C8_teardown_cancels_timers c8State 9).1,
   (C8_teardown_cancels_timers c8State 9).2 rfl⟩

/-- C9: processing `presence_sync` replaces the roster wholesale — the new
`onlineUsers` map is computed from the message's `users` array alone, it
contains a key exactly for the listed `user_id`s, its keys are free of
duplicates, and every stored entry is keyed by its own `user_id`. -/
theorem C9_presence_sync_replaces (users : List PresenceUser) (s : EditorState) :
    (handlePresenceSync users s).onlineUsers = presenceSyncUsers users ∧
    (∀ k, (mapGet (presenceSyncUsers users) k).isSome = true ↔
      k ∈ users.map (fun u => u.user_id)) ∧
    (mapKeys (presenceSyncUsers users)).Nodup ∧
    (∀ k v, mapGet (presenceSyncUsers users) k = some v → v.user_id = k) := by
  refine ⟨rfl, ?_, ?_, ?_⟩
  · intro k
    rw [mapGet_isSome_iff]
    unfold presenceSyncUsers
    rw [mem_mapKeys_presenceSyncUsers_aux users [] k]
    simp [mapKeys]
  · exact nodup_mapKeys_presenceSyncUsers_aux users [] (by simp [mapKeys])
  · intro k v h
    have hmem := mapGet_eq_some_mem _ _ _ h
    exact keyed_presenceSyncUsers_aux users [] (by simp) (k, v) hmem

theorem C9_presence_sync_replaces_witness :
    (handlePresenceSync [⟨"u1", "alice", "#abc"⟩, ⟨"u2", "bob", "#def"⟩]
        (initState true true)).onlineUsers =
      presenceSyncUsers [⟨"u1", "alice", "#abc"⟩, ⟨"u2", "bob", "#def"⟩] ∧
    ((mapGet (presenceSyncUsers
        [⟨"u1", "alice", "#abc"⟩, ⟨"u2", "bob", "#def"⟩]) "u1").isSome = true ↔
      "u1" ∈ ([⟨"u1", "alice", "#abc"⟩, ⟨"u2", "bob", "#def"⟩] :
        List PresenceUser).map (fun u => u.user_id)) ∧
    (mapKeys (presenceSyncUsers
      [⟨"u1", "alice", "#abc"⟩, ⟨"u2", "bob", "#def"⟩])).Nodup ∧
    (mapGet (presenceSyncUsers [⟨"u1", "alice", "#abc"⟩, ⟨"u2", "bob", "#def"⟩])
        "u2" = some ⟨"u2", "bob", "#def"⟩ →
      PresenceUser.user_id ⟨"u2", "bob", "#def"⟩ = "u2") :=
  ⟨(C9_presence_sync_replaces
      [⟨"u1", "alice", "#abc"⟩, ⟨"u2", "bob", "#def"⟩] (initState true true)).1,
   (C9_presence_sync_replaces
      [⟨"u1", "alice", "#abc"⟩, ⟨"u2", "bob", "#def"⟩] (initState true true)).2.1 "u1",
   (C9_presence_sync_replaces
      [⟨"u1", "alice", "#abc"⟩, ⟨"u2", "bob", "#def"⟩] (initState true true)).2.2.1,
   (C9_presence_sync_replaces
      [⟨"u1", "alice", "#abc"⟩, ⟨"u2", "bob", "#def"⟩]
      (initState true true)).2.2.2 "u2" ⟨"u2", "bob", "#def"⟩⟩

/-- C10: every REST call goes through `apiFetch`; a 401 response clears the
stored token and user and throws `Unauthorized`, so no caller observes a
successful result from an unauthorized request; a 204 response resolves
to null. -/
theorem C10_api_unauthorized (st : AuthState) (r : ApiResponse)
    (url data : String) :
    (r.status = 401 →
      (apiFetch st r).1.token = none ∧
      (apiFetch st r).1.user = none ∧
      (apiFetch st r).2 = .failure "Unauthorized" ∧
      ∀ b, (apiFetch st r).2 ≠ .success b) ∧
    (r.status = 204 → apiFetch st r = (st, .success none)) ∧
    getReq url st r = apiFetch st r ∧
    postReq url data st r = apiFetch st r ∧
    putReq url data st r = apiFetch st r ∧
    delReq url st r = apiFetch st r := by
  refine ⟨?_, ?_, rfl, rfl, rfl, rfl⟩
  · intro h401
    simp [apiFetch, respOk, logout, h401]
  · intro h204
    simp [apiFetch, respOk, h204]

theorem C10_api_unauthorized_witness :
    (((apiFetch ⟨some "tok", some ⟨1, "alice", none⟩⟩
        ⟨401, "Unauthorized", none, none, ""⟩).1.token = none ∧
      (apiFetch ⟨some "tok", some ⟨1, "alice", none⟩⟩
        ⟨401, "Unauthorized", none, none, ""⟩).1.user = none ∧
      (apiFetch ⟨some "tok", some ⟨1, "alice", none⟩⟩
        ⟨401, "Unauthorized", none, none, ""⟩).2 = .failure "Unauthorized" ∧
      ∀ b, (apiFetch ⟨some "tok", some ⟨1, "alice", none⟩⟩
        ⟨401, "Unauthorized", none, none, ""⟩).2 ≠ .success b) ∧
    apiFetch ⟨some "tok", some ⟨1, "alice", none⟩⟩
        ⟨204, "No Content", none, none, ""⟩ =
      (⟨some "tok", some ⟨1, "alice", none⟩⟩, .success none)) ∧
    getReq "/documents/1/" ⟨some "tok", none⟩ ⟨401, "Unauthorized", none, none, ""⟩ =
      apiFetch ⟨some "tok", none⟩ ⟨401, "Unauthorized", none, none, ""⟩ :=
  ⟨⟨(C10_api_unauthorized ⟨some "tok", some ⟨1, "alice", none⟩⟩
      ⟨401, "Unauthorized", none, none, ""⟩ "/documents/1/" "").1 rfl,
    (C10_api_unauthorized ⟨some "tok", some ⟨1, "alice", none⟩⟩
      ⟨204, "No Content", none, none, ""⟩ "/documents/1/" "").2.1 rfl⟩,
   (C10_api_unauthorized ⟨some "tok", none⟩
      ⟨401, "Unauthorized", none, none, ""⟩ "/documents/1/" "").2.2.1⟩

end SyncDocs

